import Mathlib

/-!
# Provisioner-cluster handlers of the tsuru API (`api/cluster.go`)

A shallow embedding of the three handlers `updateCluster`, `listClusters`
and `deleteCluster`.  The handlers only glue collaborators together
(permission check, form decoder, event subsystem, cluster store, response
writer), so the embedding threads an explicit world through every handler:
the state of the store, the response being written, and the ordered list of
calls made to the collaborators.  The collaborators themselves are not part
of the file; their answers are fields of an environment `Env`.
-/

namespace Tsuru

/-! ## Errors -/

/-- Package-level error values the handlers compare against or return. -/
inductive Sentinel where
  /-- Go `permission.ErrUnauthorized` -/
  | ErrUnauthorized
  /-- Go `cluster.ErrNoCluster` -/
  | ErrNoCluster
  /-- Go `cluster.ErrClusterNotFound` -/
  | ErrClusterNotFound
  deriving DecidableEq, Repr

/-- Go `error` values that can flow through the handlers. -/
inductive Err where
  /-- one of the package-level error values -/
  | Var (s : Sentinel)
  /-- Go `&tsuruErrors.HTTP{Code: ..., Message: ...}` -/
  | HTTP (Code : Nat) (Message : String)
  /-- Go `errors.WithStack(e)` -/
  | WithStack (e : Err)
  /-- Go `errors.WithMessage(e, msg)`, a wrapping layer that carries a cause -/
  | WithMessage (e : Err) (msg : String)
  /-- any other error value, with its text -/
  | New (msg : String)
  deriving DecidableEq, Repr

/-- Go `permission.ErrUnauthorized` -/
def ErrUnauthorized : Err := Err.Var Sentinel.ErrUnauthorized

/-- Go `cluster.ErrNoCluster` -/
def ErrNoCluster : Err := Err.Var Sentinel.ErrNoCluster

/-- Go `cluster.ErrClusterNotFound` -/
def ErrClusterNotFound : Err := Err.Var Sentinel.ErrClusterNotFound

/-- Go `errors.Cause`: strips every layer that has a cause. -/
def Cause : Err → Err
  | Err.WithStack e => Cause e
  | Err.WithMessage e _ => Cause e
  | e => e

/-- The method `Error()`.  The texts of the package-level values are declared
outside the handlers and are therefore a parameter. -/
def Err.Error (text : Sentinel → String) : Err → String
  | Err.Var s => text s
  | Err.HTTP _ m => m
  | Err.WithStack e => e.Error text
  | Err.WithMessage e msg => msg ++ ": " ++ e.Error text
  | Err.New msg => msg

/-- Go `http.StatusOK` -/
def StatusOK : Nat := 200
/-- Go `http.StatusNoContent` -/
def StatusNoContent : Nat := 204
/-- Go `http.StatusBadRequest` -/
def StatusBadRequest : Nat := 400
/-- Go `http.StatusNotFound` -/
def StatusNotFound : Nat := 404
/-- Go `http.StatusConflict` -/
def StatusConflict : Nat := 409

/-! ## Data -/

/-- The permission schemes named by the handlers. -/
inductive Perm where
  | PermClusterUpdate
  | PermClusterRead
  | PermClusterDelete
  | PermClusterReadEvents
  deriving DecidableEq, Repr

/-- An `auth.Token`: the identity of the caller. -/
structure Token where
  id : Nat
  deriving DecidableEq, Repr

/-- Go `url.Values`: keys with their lists of values. -/
abbrev Values := List (String × List String)

/-- Go `url.Values.Get`: the first value stored under the key, or the empty string. -/
def Values.Get (v : Values) (key : String) : String :=
  match v.lookup key with
  | some (x :: _) => x
  | _ => ""

/-- Modelled from the spec: the type `cluster.Cluster` is declared outside the
handlers.  A descriptor is identified by its `Name` and carries configuration
fields bound from the input. -/
structure Cluster where
  Name : String
  Config : List (String × String)
  deriving DecidableEq, Repr

/-- The zero value of `cluster.Cluster` (`var provCluster cluster.Cluster`). -/
def Cluster.zero : Cluster := { Name := "", Config := [] }

/-- The kinds of `event.Target`. -/
inductive TargetType where
  | TargetTypeCluster
  deriving DecidableEq, Repr

/-- Go `event.Target` -/
structure Target where
  /-- the field `Type` -/
  Typ : TargetType
  Value : String
  deriving DecidableEq, Repr

/-- The result of `event.FormToCustomData`, kept symbolic. -/
inductive CustomData where
  | FormToCustomData (form : Values)
  deriving DecidableEq, Repr

/-- The result of `event.Allowed`, kept symbolic. -/
inductive AllowedPermission where
  | Allowed (scheme : Perm)
  deriving DecidableEq, Repr

/-- Go `event.Opts` as filled in by the handlers. -/
structure Opts where
  Target : Tsuru.Target
  Kind : Perm
  Owner : Token
  CustomData : Tsuru.CustomData
  Allowed : AllowedPermission
  deriving DecidableEq, Repr

/-- The part of `*http.Request` the handlers read: what `r.ParseForm()` returns,
the value of `r.Form` afterwards, and `r.URL.Query()`. -/
structure Request where
  parseErr : Option Err
  Form : Values
  Query : Values
  deriving DecidableEq, Repr

/-- How a call into the cluster store ends: it returns an error value
(`none` is `nil`), or it panics with a value. -/
inductive StoreOutcome where
  | ret (err : Option Err)
  | fault (value : String)
  deriving DecidableEq, Repr

/-- One call made by a handler to a collaborator, with the answer it got. -/
inductive Call where
  | Check (t : Token) (scheme : Perm) (allowed : Bool)
  | ParseForm (err : Option Err)
  | DecodeValues (form : Values) (err : Option Err)
  | EventNew (opts : Opts) (err : Option Err)
  | Done (err : Option Err)
  | Save (c : Cluster) (res : StoreOutcome)
  | AllClusters (clusters : List Cluster) (err : Option Err)
  | DeleteCluster (name : String) (res : StoreOutcome)
  | WriteHeader (code : Nat)
  | Encode (clusters : List Cluster) (err : Option Err)
  deriving DecidableEq, Repr

/-- The response as an `http.ResponseWriter` records it: the status code once
the header is written, and the collections written to the body. -/
structure Response where
  status : Option Nat
  body : List (List Cluster)
  deriving DecidableEq, Repr

/-- A fresh response writer. -/
def Response.empty : Response := { status := none, body := [] }

/-- The collaborators of the handlers, over a store with states `σ`. -/
structure Env (σ : Type) where
  /-- Go `permission.Check` -/
  Check : Token → Perm → Bool
  /-- Go `dec.DecodeValues(&provCluster, r.Form)` of the decoder as configured
  (`IgnoreCase(true)`, `IgnoreUnknownKeys(true)`): the descriptor as filled in, and the error -/
  DecodeValues : Values → Cluster × Option Err
  /-- Go `event.New`: the error it returns (`none` when the event is opened) -/
  EventNew : Opts → Option Err
  /-- Go `provCluster.Save()` -/
  Save : Cluster → σ → StoreOutcome × σ
  /-- Go `cluster.AllClusters()` -/
  AllClusters : σ → List Cluster × Option Err
  /-- Go `cluster.DeleteCluster(name)` -/
  DeleteCluster : String → σ → StoreOutcome × σ
  /-- Go `json.NewEncoder(w).Encode(clusters)`: the error it returns -/
  Encode : List Cluster → Option Err
  /-- the texts of the package-level error values -/
  text : Sentinel → String

/-- The state a handler runs in. -/
structure World (σ : Type) where
  store : σ
  resp : Response
  trace : List Call

/-- Record a call at the end of the trace. -/
def World.log {σ : Type} (w : World σ) (c : Call) : World σ :=
  { w with trace := w.trace ++ [c] }

/-- Go `w.WriteHeader(code)`: the first status written is the one that counts. -/
def World.WriteHeader {σ : Type} (w : World σ) (code : Nat) : World σ :=
  let w1 := w.log (Call.WriteHeader code)
  match w1.resp.status with
  | none => { w1 with resp := { w1.resp with status := some code } }
  | some _ => w1

/-- A successful `Encode` writes the collection to the body; the first write
sends the header with `StatusOK` when none was written. -/
def World.Write {σ : Type} (w : World σ) (cs : List Cluster) : World σ :=
  match w.resp.status with
  | none => { w with resp := { status := some StatusOK, body := w.resp.body ++ [cs] } }
  | some _ => { w with resp := { w.resp with body := w.resp.body ++ [cs] } }

/-- How a handler ends: it returns its `err` result, or a panic leaves it. -/
inductive Outcome where
  | returned (err : Option Err)
  | panicked (value : String)
  deriving DecidableEq, Repr

/-- How the statements after a `defer` end: by `return e`, or by a panic
raised while the named result `err` held `errVar`. -/
inductive Exit where
  | ret (e : Option Err)
  | fault (value : String) (errVar : Option Err)
  deriving DecidableEq, Repr

/-- The statement `defer func() { evt.Done(err) }()` around the rest of the
body: when the body is left, `evt.Done` is called with the value the named
result `err` has at that moment.  `return e` assigns `e` to `err` first; a
panic leaves `err` as it was. -/
def deferDone {σ : Type} (body : Exit × World σ) : Outcome × World σ :=
  match body with
  | (Exit.ret e, w) => (Outcome.returned e, w.log (Call.Done e))
  | (Exit.fault v errVar, w) => (Outcome.panicked v, w.log (Call.Done errVar))

/-! ## The handlers -/

/-- The handler `updateCluster` (`POST /provisioner/clusters`). -/
def updateCluster {σ : Type} (env : Env σ) (r : Request) (t : Token) (w : World σ) :
    Outcome × World σ :=
  let allowed := env.Check t Perm.PermClusterUpdate
  let w := w.log (Call.Check t Perm.PermClusterUpdate allowed)
  if !allowed then
    (Outcome.returned (some ErrUnauthorized), w)
  else
    -- err = r.ParseForm(); if err == nil { err = dec.DecodeValues(&provCluster, r.Form) }
    let w := w.log (Call.ParseForm r.parseErr)
    let bound : Cluster × Option Err × World σ :=
      match r.parseErr with
      | none =>
        let d := env.DecodeValues r.Form
        (d.1, d.2, w.log (Call.DecodeValues r.Form d.2))
      | some e => (Cluster.zero, some e, w)
    let provCluster := bound.1
    let w := bound.2.2
    match bound.2.1 with
    | some e => (Outcome.returned (some (Err.HTTP StatusBadRequest (e.Error env.text))), w)
    | none =>
      let opts : Opts :=
        { Target := { Typ := TargetType.TargetTypeCluster, Value := provCluster.Name },
          Kind := Perm.PermClusterUpdate,
          Owner := t,
          CustomData := CustomData.FormToCustomData r.Form,
          Allowed := AllowedPermission.Allowed Perm.PermClusterReadEvents }
      let evErr := env.EventNew opts
      let w := w.log (Call.EventNew opts evErr)
      match evErr with
      | some e => (Outcome.returned (some e), w)
      | none =>
        deferDone <|
          let saved := env.Save provCluster w.store
          let w := { w with store := saved.2 }.log (Call.Save provCluster saved.1)
          match saved.1 with
          | StoreOutcome.fault v => (Exit.fault v none, w)
          | StoreOutcome.ret (some e) => (Exit.ret (some (Err.WithStack e)), w)
          | StoreOutcome.ret none => (Exit.ret none, w.WriteHeader StatusOK)

/-- The handler `listClusters` (`GET /provisioner/clusters`). -/
def listClusters {σ : Type} (env : Env σ) (_r : Request) (t : Token) (w : World σ) :
    Outcome × World σ :=
  let allowed := env.Check t Perm.PermClusterRead
  let w := w.log (Call.Check t Perm.PermClusterRead allowed)
  if !allowed then
    (Outcome.returned (some ErrUnauthorized), w)
  else
    let got := env.AllClusters w.store
    let w := w.log (Call.AllClusters got.1 got.2)
    match got.2 with
    | some e =>
      if e = ErrNoCluster then
        (Outcome.returned none, w.WriteHeader StatusNoContent)
      else
        (Outcome.returned (some e), w)
    | none =>
      let encErr := env.Encode got.1
      let w := w.log (Call.Encode got.1 encErr)
      match encErr with
      | some e => (Outcome.returned (some e), w)
      | none => (Outcome.returned none, w.Write got.1)

/-- The handler `deleteCluster` (`/provisioner/clusters/{name}`). -/
def deleteCluster {σ : Type} (env : Env σ) (r : Request) (t : Token) (w : World σ) :
    Outcome × World σ :=
  let allowed := env.Check t Perm.PermClusterDelete
  let w := w.log (Call.Check t Perm.PermClusterDelete allowed)
  if !allowed then
    (Outcome.returned (some ErrUnauthorized), w)
  else
    -- r.ParseForm(): the error it returns is not assigned
    let w := w.log (Call.ParseForm r.parseErr)
    let clusterName := Values.Get r.Query ":name"
    let opts : Opts :=
      { Target := { Typ := TargetType.TargetTypeCluster, Value := clusterName },
        Kind := Perm.PermClusterDelete,
        Owner := t,
        CustomData := CustomData.FormToCustomData r.Form,
        Allowed := AllowedPermission.Allowed Perm.PermClusterReadEvents }
    let evErr := env.EventNew opts
    let w := w.log (Call.EventNew opts evErr)
    match evErr with
    | some e => (Outcome.returned (some e), w)
    | none =>
      deferDone <|
        let deleted := env.DeleteCluster clusterName w.store
        let w := { w with store := deleted.2 }.log (Call.DeleteCluster clusterName deleted.1)
        match deleted.1 with
        | StoreOutcome.fault v => (Exit.fault v none, w)
        | StoreOutcome.ret (some e) =>
          if Cause e = ErrClusterNotFound then
            (Exit.ret (some (Err.HTTP StatusNotFound (e.Error env.text))), w)
          else
            (Exit.ret (some e), w)
        | StoreOutcome.ret none => (Exit.ret none, w)

/-! ## Reading a trace -/

/-- A call into the cluster store. -/
def Call.isStore : Call → Bool
  | Call.Save _ _ => true
  | Call.AllClusters _ _ => true
  | Call.DeleteCluster _ _ => true
  | _ => false

/-- A call that changes the cluster store. -/
def Call.isMutation : Call → Bool
  | Call.Save _ _ => true
  | Call.DeleteCluster _ _ => true
  | _ => false

/-- A call into the event subsystem. -/
def Call.isAudit : Call → Bool
  | Call.EventNew _ _ => true
  | Call.Done _ => true
  | _ => false

/-- A call of `event.New`. -/
def Call.isEventNew : Call → Bool
  | Call.EventNew _ _ => true
  | _ => false

/-- A call of `evt.Done`. -/
def Call.isDone : Call → Bool
  | Call.Done _ => true
  | _ => false

/-- A world in which nothing has happened yet. -/
def World.init {σ : Type} (s : σ) : World σ :=
  { store := s, resp := Response.empty, trace := [] }

/-- The three handlers. -/
inductive Op where
  | update
  | list
  | delete
  deriving DecidableEq, Repr

/-- The handler of an operation. -/
def Op.run {σ : Type} (op : Op) (env : Env σ) (r : Request) (t : Token) (w : World σ) :
    Outcome × World σ :=
  match op with
  | Op.update => updateCluster env r t w
  | Op.list => listClusters env r t w
  | Op.delete => deleteCluster env r t w

/-- The permission scheme the handler of an operation passes to `permission.Check`. -/
def Op.capability : Op → Perm
  | Op.update => Perm.PermClusterUpdate
  | Op.list => Perm.PermClusterRead
  | Op.delete => Perm.PermClusterDelete

/-- The calls a handler makes when started in `w`, in order. -/
def Op.calls {σ : Type} (op : Op) (env : Env σ) (r : Request) (t : Token) (w : World σ) :
    List Call :=
  (op.run env r t w).2.trace.drop w.trace.length

/-! ## A store and an environment to run the handlers on -/

/-- Modelled from the spec: the cluster store is outside the handlers.  Its
state is the list of stored descriptors. -/
abbrev Store := List Cluster

/-- The descriptor stored under a name. -/
def Store.find (s : Store) (name : String) : Option Cluster :=
  List.find? (fun d => d.Name == name) s

/-- Modelled from the spec: `save` is a full upsert keyed by `name`: the
descriptor stored under the name is replaced, or the descriptor is added. -/
def Store.upsert (c : Cluster) : Store → Store
  | [] => [c]
  | d :: rest => if d.Name = c.Name then c :: rest else d :: Store.upsert c rest

/-- Modelled from the spec: `save` seen as the store call of `updateCluster`:
it always returns `nil` and leaves the upserted state. -/
def Store.Save (c : Cluster) (s : Store) : StoreOutcome × Store :=
  (StoreOutcome.ret none, Store.upsert c s)

/-- An environment for running the handlers on concrete inputs: the token 0
has no permission, `event.New` fails for the owner 2, the binder reads the key
`name` and fails without it, saving the name `boom` panics, deleting a name
that is not stored reports a wrapped `ErrClusterNotFound`, and an empty store
answers `AllClusters` with `ErrNoCluster`. -/
def sampleEnv : Env Store where
  Check := fun t _ => t.id != 0
  DecodeValues := fun f =>
    match f.lookup "name" with
    | some _ => ({ Name := Values.Get f "name", Config := [] }, none)
    | none => (Cluster.zero, some (Err.New "name is required"))
  EventNew := fun o => if o.Owner.id = 2 then some (Err.New "event storage down") else none
  Save := fun c s =>
    if c.Name = "boom" then (StoreOutcome.fault "connection lost", s)
    else if c.Name = "" then (StoreOutcome.ret (some (Err.New "invalid name")), s)
    else Store.Save c s
  AllClusters := fun s => if s.isEmpty then ([], some ErrNoCluster) else (s, none)
  DeleteCluster := fun n s =>
    if n = "boom" then (StoreOutcome.fault "connection lost", s)
    else match Store.find s n with
    | some _ => (StoreOutcome.ret none, s.filter (fun d => d.Name != n))
    | none => (StoreOutcome.ret (some (Err.WithStack ErrClusterNotFound)), s)
  Encode := fun _ => none
  text := fun
    | Sentinel.ErrUnauthorized => "permission denied"
    | Sentinel.ErrNoCluster => "no cluster"
    | Sentinel.ErrClusterNotFound => "cluster not found"

/-- The environment `sampleEnv` over a store that answers `AllClusters` with
its descriptors and `nil`, also when it holds none. -/
def plainListEnv : Env Store :=
  { sampleEnv with AllClusters := fun s => (s, none) }

/-- A request whose form and path carry the name `c1`. -/
def reqC1 : Request :=
  { parseErr := none, Form := [("name", ["c1"]), ("addr", ["http://x"])], Query := [(":name", ["c1"])] }

/-- A request whose form cannot be parsed. -/
def reqBad : Request :=
  { parseErr := some (Err.New "invalid URL escape"), Form := [], Query := [(":name", ["c1"])] }

/-- The options `deleteCluster` passes to `event.New` for `reqC1` and a token. -/
def optsDeleteC1 (t : Token) : Opts :=
  { Target := { Typ := TargetType.TargetTypeCluster, Value := "c1" },
    Kind := Perm.PermClusterDelete,
    Owner := t,
    CustomData := CustomData.FormToCustomData reqC1.Form,
    Allowed := AllowedPermission.Allowed Perm.PermClusterReadEvents }

/-- The options `updateCluster` passes to `event.New` for `reqC1` and a token. -/
def optsUpdateC1 (t : Token) : Opts :=
  { Target := { Typ := TargetType.TargetTypeCluster, Value := "c1" },
    Kind := Perm.PermClusterUpdate,
    Owner := t,
    CustomData := CustomData.FormToCustomData reqC1.Form,
    Allowed := AllowedPermission.Allowed Perm.PermClusterReadEvents }

/-- A request whose form and path carry the name `boom`. -/
def reqBoom : Request :=
  { parseErr := none, Form := [("name", ["boom"])], Query := [(":name", ["boom"])] }

/-- The descriptor named `c1`. -/
def clusterC1 : Cluster := { Name := "c1", Config := [] }

/-- The options `updateCluster` hands to `event.New` once the form is bound. -/
def updateOpts {σ : Type} (env : Env σ) (r : Request) (t : Token) : Opts :=
  { Target := { Typ := TargetType.TargetTypeCluster, Value := (env.DecodeValues r.Form).1.Name },
    Kind := Perm.PermClusterUpdate,
    Owner := t,
    CustomData := CustomData.FormToCustomData r.Form,
    Allowed := AllowedPermission.Allowed Perm.PermClusterReadEvents }

/-- The options `deleteCluster` hands to `event.New`. -/
def deleteOpts (r : Request) (t : Token) : Opts :=
  { Target := { Typ := TargetType.TargetTypeCluster, Value := Values.Get r.Query ":name" },
    Kind := Perm.PermClusterDelete,
    Owner := t,
    CustomData := CustomData.FormToCustomData r.Form,
    Allowed := AllowedPermission.Allowed Perm.PermClusterReadEvents }

/-- Every call that changes the store comes after a call of `event.New` that
returned `nil`, which comes after the call `permission.Check(t, cap)` that
answered true. -/
def Guarded (t : Token) (cap : Perm) (l : List Call) : Prop :=
  ∀ (i : Nat) (c : Call), l[i]? = some c → c.isMutation = true →
    ∃ j k o, k < j ∧ j < i ∧ l[j]? = some (Call.EventNew o none) ∧
      l[k]? = some (Call.Check t cap true)

/-! ## How the world operations act on each component -/

@[simp]
theorem World.log_trace {σ : Type} (w : World σ) (c : Call) :
    (w.log c).trace = w.trace ++ [c] := rfl

@[simp]
theorem World.log_store {σ : Type} (w : World σ) (c : Call) :
    (w.log c).store = w.store := rfl

@[simp]
theorem World.log_resp {σ : Type} (w : World σ) (c : Call) :
    (w.log c).resp = w.resp := rfl

@[simp]
theorem World.WriteHeader_trace {σ : Type} (w : World σ) (code : Nat) :
    (w.WriteHeader code).trace = w.trace ++ [Call.WriteHeader code] := by
  unfold World.WriteHeader
  cases h : w.resp.status <;> simp [h]

@[simp]
theorem World.WriteHeader_store {σ : Type} (w : World σ) (code : Nat) :
    (w.WriteHeader code).store = w.store := by
  unfold World.WriteHeader
  cases h : w.resp.status <;> simp [h]

theorem World.WriteHeader_fresh {σ : Type} (w : World σ) (code : Nat)
    (h : w.resp.status = none) :
    (w.WriteHeader code).resp = { status := some code, body := w.resp.body } := by
  unfold World.WriteHeader
  simp [h]

@[simp]
theorem World.Write_trace {σ : Type} (w : World σ) (cs : List Cluster) :
    (w.Write cs).trace = w.trace := by
  unfold World.Write
  cases h : w.resp.status <;> simp

@[simp]
theorem World.Write_store {σ : Type} (w : World σ) (cs : List Cluster) :
    (w.Write cs).store = w.store := by
  unfold World.Write
  cases h : w.resp.status <;> simp

theorem World.Write_fresh {σ : Type} (w : World σ) (cs : List Cluster)
    (h : w.resp.status = none) :
    (w.Write cs).resp = { status := some StatusOK, body := w.resp.body ++ [cs] } := by
  unfold World.Write
  simp [h]

/-! ## The upsert of the modelled store -/

/-- The descriptor stored under a name is replaced in place. -/
theorem Store.upsert_idem (c : Cluster) (s : Store) :
    Store.upsert c (Store.upsert c s) = Store.upsert c s := by
  induction s with
  | nil => simp [Store.upsert]
  | cons d rest ih =>
    by_cases h : d.Name = c.Name
    · simp [Store.upsert, h]
    · simp [Store.upsert, h, ih]

/-- After an upsert the name of the descriptor leads to the descriptor. -/
theorem Store.find_upsert (c : Cluster) (s : Store) :
    Store.find (Store.upsert c s) c.Name = some c := by
  induction s with
  | nil => simp [Store.upsert, Store.find]
  | cons d rest ih =>
    by_cases h : d.Name = c.Name
    · simp [Store.upsert, Store.find, h]
    · simpa [Store.upsert, Store.find, h] using ih

/-! ## Traces in which the store is guarded -/

theorem guarded_of_no_mutation (t : Token) (cap : Perm) (l : List Call)
    (h : ∀ c ∈ l, c.isMutation = false) : Guarded t cap l := by
  intro i c hget hmut
  have hmem : c ∈ l := List.getElem?_mem hget
  rw [h c hmem] at hmut
  exact absurd hmut (by decide)

theorem guarded_of_shape (t : Token) (cap : Perm) (mid rest : List Call) (o : Opts)
    (h : ∀ c ∈ mid, c.isMutation = false) :
    Guarded t cap (Call.Check t cap true :: (mid ++ Call.EventNew o none :: rest)) := by
  intro i c hget hmut
  have hmid : (mid ++ Call.EventNew o none :: rest)[mid.length]? =
      some (Call.EventNew o none) := by
    rw [List.getElem?_append_right (Nat.le_refl _)]
    simp
  refine ⟨mid.length + 1, 0, o, Nat.succ_pos _, ?_, ?_, by simp⟩
  · by_contra hlt
    have hle : i ≤ mid.length + 1 := Nat.le_of_not_lt hlt
    rcases i with _ | i
    · simp at hget
      subst hget
      simp [Call.isMutation] at hmut
    · simp only [List.getElem?_cons_succ] at hget
      have hi : i ≤ mid.length := Nat.le_of_succ_le_succ hle
      rcases Nat.lt_or_eq_of_le hi with hlt2 | heq
      · rw [List.getElem?_append_left hlt2] at hget
        have hmem : c ∈ mid := List.getElem?_mem hget
        rw [h c hmem] at hmut
        exact absurd hmut (by decide)
      · subst heq
        rw [hmid] at hget
        cases hget
        simp [Call.isMutation] at hmut
  · simpa using hmid

/-! ## Theorems -/

/-- C1: for each of `updateCluster`, `listClusters` and `deleteCluster`, every
request, token and starting world: when `permission.Check` answers false for the
capability of the operation, the handler returns exactly
`permission.ErrUnauthorized`, the only call it makes is that check (so no call
to the cluster store and no call to the event subsystem), and the store and
the response are as they were. -/
theorem unauthorized_makes_no_call {σ : Type} (op : Op) (env : Env σ) (r : Request)
    (t : Token) (w : World σ) (h : env.Check t op.capability = false) :
    (op.run env r t w).1 = Outcome.returned (some ErrUnauthorized) ∧
    op.calls env r t w = [Call.Check t op.capability false] ∧
    (∀ c ∈ op.calls env r t w, c.isStore = false ∧ c.isAudit = false) ∧
    (op.run env r t w).2.store = w.store ∧
    (op.run env r t w).2.resp = w.resp := by
  cases op <;>
    simp [Op.calls, Op.run, Op.capability, updateCluster, listClusters, deleteCluster,
      World.log, Call.isStore, Call.isAudit] at h ⊢ <;>
    simp [h]

/-- Witness of C1: the token 0 deleting `c1` from a store that holds it. -/
theorem unauthorized_makes_no_call_witness :
    sampleEnv.Check (Token.mk 0) Op.delete.capability = false ∧
    (Op.delete.run sampleEnv reqC1 (Token.mk 0) (World.init [clusterC1])).1 =
      Outcome.returned (some ErrUnauthorized) ∧
    (Op.delete.run sampleEnv reqC1 (Token.mk 0) (World.init [clusterC1])).2.store = [clusterC1] :=
  have h := unauthorized_makes_no_call Op.delete sampleEnv reqC1 (Token.mk 0)
    (World.init [clusterC1]) rfl
  ⟨rfl, h.1, h.2.2.2.1⟩

/-- C2: for `updateCluster` and `deleteCluster`, on every execution in which
`event.New` succeeded and the handler returns `e`: `evt.Done` is called exactly
once, and its argument is `e` itself (so `nil` is recorded exactly when `nil`
is returned).  When `Save` returned an error the value recorded and returned
is that error under `errors.WithStack`; when `DeleteCluster` returned an error
whose cause is `ErrClusterNotFound` the value recorded and returned is the
HTTP error with code 404, not the error of the store. -/
theorem done_records_returned_error {σ : Type} (op : Op) (env : Env σ) (r : Request)
    (t : Token) (w : World σ) (e : Option Err) (hop : op ≠ Op.list)
    (hnew : ∃ o, Call.EventNew o none ∈ op.calls env r t w)
    (hret : (op.run env r t w).1 = Outcome.returned e) :
    (op.calls env r t w).filter Call.isDone = [Call.Done e] ∧
    (∀ c e0, Call.Save c (StoreOutcome.ret (some e0)) ∈ op.calls env r t w →
      e = some (Err.WithStack e0)) ∧
    (∀ n e0, Call.DeleteCluster n (StoreOutcome.ret (some e0)) ∈ op.calls env r t w →
      Cause e0 = ErrClusterNotFound →
      e = some (Err.HTTP StatusNotFound (e0.Error env.text))) := by
  cases op
  · simp only [Op.calls, Op.run, updateCluster] at hnew hret ⊢
    cases hC : env.Check t Perm.PermClusterUpdate
    · simp [hC] at hnew
    · cases hP : r.parseErr with
      | some pe => simp [hC, hP] at hnew
      | none =>
        cases hD : (env.DecodeValues r.Form).2 with
        | some de => simp [hC, hP, hD] at hnew
        | none =>
          simp only [hC, hP, hD] at hnew hret ⊢
          generalize hO : Opts.mk _ _ _ _ _ = opts at hnew hret ⊢
          cases hE : env.EventNew opts with
          | some ee => simp [hE] at hnew
          | none =>
            simp only [hE] at hnew hret ⊢
            generalize hS : env.Save _ _ = saved at hnew hret ⊢
            obtain ⟨res, st⟩ := saved
            clear hnew
            rcases res with (_ | e0) | v <;> simp [deferDone, Call.isDone] at hret ⊢
            · exact hret
            · exact ⟨hret, hret.symm⟩
  · exact absurd rfl hop
  · simp only [Op.calls, Op.run, deleteCluster] at hnew hret ⊢
    cases hC : env.Check t Perm.PermClusterDelete
    · simp [hC] at hnew
    · simp only [hC] at hnew hret ⊢
      generalize hO : Opts.mk _ _ _ _ _ = opts at hnew hret ⊢
      cases hE : env.EventNew opts with
      | some ee => simp [hE] at hnew
      | none =>
        simp only [hE] at hnew hret ⊢
        generalize hS : env.DeleteCluster _ _ = deleted at hnew hret ⊢
        obtain ⟨res, st⟩ := deleted
        clear hnew
        rcases res with (_ | e0) | v
        · simp [deferDone, Call.isDone] at hret ⊢
          exact hret
        · by_cases hc : Cause e0 = ErrClusterNotFound
          · simp [deferDone, Call.isDone, hc] at hret ⊢
            exact ⟨hret, hret.symm⟩
          · simp [deferDone, Call.isDone, hc] at hret ⊢
            exact hret
        · simp [deferDone, Call.isDone] at hret

/-- Witness of C2: the token 1 deletes `c1` from an empty store; the 404 error
is what `evt.Done` receives and what the handler returns. -/
theorem done_records_returned_error_witness :
    (Op.delete.run sampleEnv reqC1 (Token.mk 1) (World.init [])).1 =
      Outcome.returned (some (Err.HTTP StatusNotFound "cluster not found")) ∧
    (Op.delete.calls sampleEnv reqC1 (Token.mk 1) (World.init [])).filter Call.isDone =
      [Call.Done (some (Err.HTTP StatusNotFound "cluster not found"))] :=
  ⟨by decide,
   (done_records_returned_error Op.delete sampleEnv reqC1 (Token.mk 1) (World.init [])
      (some (Err.HTTP StatusNotFound "cluster not found")) (by decide)
      ⟨optsDeleteC1 (Token.mk 1), by decide⟩ (by decide)).1⟩

/-- C3: for every authorized `updateCluster` request whose `ParseForm` or whose
`DecodeValues` fails with the error `e`: the handler returns the HTTP error
with code 400 whose message is exactly `e.Error()`, none of its calls is a call
of `event.New`, of `evt.Done` or of the cluster store, and the store is as it
was. -/
theorem bad_input_is_bad_request {σ : Type} (env : Env σ) (r : Request) (t : Token)
    (w : World σ) (e : Err)
    (hauth : env.Check t Perm.PermClusterUpdate = true)
    (hbind : r.parseErr = some e ∨
      (r.parseErr = none ∧ (env.DecodeValues r.Form).2 = some e)) :
    (updateCluster env r t w).1 =
      Outcome.returned (some (Err.HTTP StatusBadRequest (e.Error env.text))) ∧
    (∀ c ∈ Op.update.calls env r t w, c.isAudit = false ∧ c.isStore = false) ∧
    (updateCluster env r t w).2.store = w.store := by
  rcases hbind with hP | ⟨hP, hD⟩
  · simp [Op.calls, Op.run, updateCluster, hauth, hP, Call.isAudit, Call.isStore]
  · simp [Op.calls, Op.run, updateCluster, hauth, hP, hD, Call.isAudit, Call.isStore]

/-- Witness of C3: the token 1 posts a form that cannot be parsed. -/
theorem bad_input_is_bad_request_witness :
    (updateCluster sampleEnv reqBad (Token.mk 1) (World.init [])).1 =
      Outcome.returned (some (Err.HTTP StatusBadRequest "invalid URL escape")) :=
  (bad_input_is_bad_request sampleEnv reqBad (Token.mk 1) (World.init [])
    (Err.New "invalid URL escape") (by decide) (Or.inl (by decide))).1

/-- C5: for every authorized `deleteCluster` request whose `event.New`
succeeded: when `cluster.DeleteCluster` returns an error `e0` whose cause,
under any wrapping layers, is `ErrClusterNotFound`, the handler returns the
HTTP error with code 404 and message `e0.Error()`, and `evt.Done` is called
once, with that same HTTP error; when `cluster.DeleteCluster` returns `nil` the
handler returns `nil`. -/
theorem delete_not_found_is_404 {σ : Type} (env : Env σ) (r : Request) (t : Token)
    (w : World σ)
    (hauth : env.Check t Perm.PermClusterDelete = true)
    (hnew : env.EventNew (deleteOpts r t) = none) :
    (∀ e0, (env.DeleteCluster (Values.Get r.Query ":name") w.store).1 =
        StoreOutcome.ret (some e0) → Cause e0 = ErrClusterNotFound →
      (deleteCluster env r t w).1 =
        Outcome.returned (some (Err.HTTP StatusNotFound (e0.Error env.text))) ∧
      (Op.delete.calls env r t w).filter Call.isDone =
        [Call.Done (some (Err.HTTP StatusNotFound (e0.Error env.text)))]) ∧
    ((env.DeleteCluster (Values.Get r.Query ":name") w.store).1 = StoreOutcome.ret none →
      (deleteCluster env r t w).1 = Outcome.returned none) := by
  unfold deleteOpts at hnew
  constructor
  · intro e0 hdel hcause
    simp [Op.calls, Op.run, deleteCluster, hauth, hnew, hdel, hcause, deferDone, Call.isDone]
  · intro hdel
    simp [deleteCluster, hauth, hnew, hdel, deferDone]

/-- Witness of C5: the token 1 deletes `c1` from an empty store, where the
store reports `ErrClusterNotFound` under `errors.WithStack`. -/
theorem delete_not_found_is_404_witness :
    (deleteCluster sampleEnv reqC1 (Token.mk 1) (World.init [])).1 =
      Outcome.returned (some (Err.HTTP StatusNotFound "cluster not found")) :=
  ((delete_not_found_is_404 sampleEnv reqC1 (Token.mk 1) (World.init [])
    (by decide) (by decide)).1 (Err.WithStack ErrClusterNotFound) (by decide) (by decide)).1

/-- C6: for `updateCluster` (with a form that parses and decodes) and
`deleteCluster`, for every authorized request: when `event.New` returns an
error `e`, the handler returns exactly `e`, none of its calls is a call of the
cluster store or of `evt.Done`, and the store is as it was.  And in every
execution of any of the three handlers, a call of `Save` or `DeleteCluster`
comes after a call of `event.New` that returned `nil`, which comes after the
call of `permission.Check` for the capability of the handler that answered
true. -/
theorem store_call_needs_opened_event {σ : Type} (env : Env σ) (r : Request) (t : Token)
    (w : World σ) :
    (∀ e, env.Check t Perm.PermClusterUpdate = true → r.parseErr = none →
      (env.DecodeValues r.Form).2 = none → env.EventNew (updateOpts env r t) = some e →
      (updateCluster env r t w).1 = Outcome.returned (some e) ∧
      (∀ c ∈ Op.update.calls env r t w, c.isStore = false ∧ c.isDone = false) ∧
      (updateCluster env r t w).2.store = w.store) ∧
    (∀ e, env.Check t Perm.PermClusterDelete = true →
      env.EventNew (deleteOpts r t) = some e →
      (deleteCluster env r t w).1 = Outcome.returned (some e) ∧
      (∀ c ∈ Op.delete.calls env r t w, c.isStore = false ∧ c.isDone = false) ∧
      (deleteCluster env r t w).2.store = w.store) ∧
    (∀ op : Op, Guarded t op.capability (op.calls env r t w)) := by
  refine ⟨?_, ?_, ?_⟩
  · intro e hC hP hD hE
    unfold updateOpts at hE
    simp [Op.calls, Op.run, updateCluster, hC, hP, hD, hE, Call.isStore, Call.isDone]
  · intro e hC hE
    unfold deleteOpts at hE
    simp [Op.calls, Op.run, deleteCluster, hC, hE, Call.isStore, Call.isDone]
  · intro op
    cases op
    · simp only [Op.calls, Op.run, updateCluster, Op.capability]
      cases hC : env.Check t Perm.PermClusterUpdate
      · exact guarded_of_no_mutation _ _ _ (by simp [Call.isMutation])
      · cases hP : r.parseErr with
        | some pe =>
          simp only [hC, hP]
          exact guarded_of_no_mutation _ _ _ (by simp [Call.isMutation])
        | none =>
          cases hD : (env.DecodeValues r.Form).2 with
          | some de =>
            simp only [hC, hP, hD]
            exact guarded_of_no_mutation _ _ _ (by simp [Call.isMutation])
          | none =>
            simp only [hC, hP, hD]
            generalize hO : Opts.mk _ _ _ _ _ = opts
            cases hE : env.EventNew opts with
            | some ee =>
              simp only [hE]
              exact guarded_of_no_mutation _ _ _ (by simp [Call.isMutation])
            | none =>
              simp only [hE]
              generalize hS : env.Save _ _ = saved
              obtain ⟨res, st⟩ := saved
              rcases res with (_ | e0) | v <;> simp [deferDone] <;>
                exact guarded_of_shape t _ [_, _] _ opts (by simp [Call.isMutation])
    · apply guarded_of_no_mutation
      simp only [Op.calls, Op.run, listClusters]
      cases hC : env.Check t Perm.PermClusterRead
      · simp [Call.isMutation]
      · rcases hA : env.AllClusters w.store with ⟨cs, _ | ae⟩
        · cases hN : env.Encode cs <;> simp [hA, hN, Call.isMutation]
        · by_cases hn : ae = ErrNoCluster <;> simp [hA, hn, Call.isMutation]
    · simp only [Op.calls, Op.run, deleteCluster, Op.capability]
      cases hC : env.Check t Perm.PermClusterDelete
      · exact guarded_of_no_mutation _ _ _ (by simp [Call.isMutation])
      · simp only [Bool.not_true, Bool.false_eq_true, if_false]
        generalize hO : Opts.mk _ _ _ _ _ = opts
        cases hE : env.EventNew opts with
        | some ee =>
          simp only [hE]
          exact guarded_of_no_mutation _ _ _ (by simp [Call.isMutation])
        | none =>
          simp only [hE]
          generalize hS : env.DeleteCluster _ _ = deleted
          obtain ⟨res, st⟩ := deleted
          rcases res with (_ | e0) | v
          · simp [deferDone]
            exact guarded_of_shape t _ [_] _ opts (by simp [Call.isMutation])
          · by_cases hc : Cause e0 = ErrClusterNotFound <;> simp [deferDone, hc] <;>
              exact guarded_of_shape t _ [_] _ opts (by simp [Call.isMutation])
          · simp [deferDone]
            exact guarded_of_shape t _ [_] _ opts (by simp [Call.isMutation])

/-- Witness of C6: `event.New` fails for the token 2, for both handlers. -/
theorem store_call_needs_opened_event_witness :
    (updateCluster sampleEnv reqC1 (Token.mk 2) (World.init [])).1 =
      Outcome.returned (some (Err.New "event storage down")) ∧
    (deleteCluster sampleEnv reqC1 (Token.mk 2) (World.init [clusterC1])).2.store =
      [clusterC1] :=
  ⟨((store_call_needs_opened_event sampleEnv reqC1 (Token.mk 2) (World.init [])).1
      (Err.New "event storage down") (by decide) (by decide) (by decide) (by decide)).1,
   ((store_call_needs_opened_event sampleEnv reqC1 (Token.mk 2)
      (World.init [clusterC1])).2.1
      (Err.New "event storage down") (by decide) (by decide)).2.2⟩

/-- C8 as stated fails: in the run of `updateCluster` for the token 1 and the
form of `c1`, the `Allowed` field handed to `event.New` is
`event.Allowed(permission.PermClusterReadEvents)`, which is not
`event.Allowed(permission.PermClusterRead)`, the capability `listClusters`
checks. -/
theorem event_visibility_is_not_cluster_read :
    ∃ o, Call.EventNew o none ∈ Op.update.calls sampleEnv reqC1 (Token.mk 1) (World.init []) ∧
      o.Allowed = AllowedPermission.Allowed Perm.PermClusterReadEvents ∧
      o.Allowed ≠ AllowedPermission.Allowed Op.list.capability :=
  ⟨optsUpdateC1 (Token.mk 1), by decide, by decide, by decide⟩

/-- C8, amended: `updateCluster` (authorized, with a form that parses and
decodes) and `deleteCluster` (authorized) call `event.New` exactly once, with
options whose target has the type cluster and as value the `Name` of the
decoded descriptor (update) or `r.URL.Query().Get(":name")` (delete), whose
`Kind` is the capability that `permission.Check` was asked about, whose `Owner`
is the token, whose `CustomData` is `FormToCustomData(r.Form)`, and whose
`Allowed` is `event.Allowed(permission.PermClusterReadEvents)`.  For update,
every `Save` is called on the decoded descriptor, the one whose name is the
target. -/
theorem event_opts_fields {σ : Type} (env : Env σ) (r : Request) (t : Token) (w : World σ) :
    (env.Check t Perm.PermClusterUpdate = true → r.parseErr = none →
      (env.DecodeValues r.Form).2 = none →
      (∃ o err, (Op.update.calls env r t w).filter Call.isEventNew = [Call.EventNew o err] ∧
        o.Target.Typ = TargetType.TargetTypeCluster ∧
        o.Target.Value = (env.DecodeValues r.Form).1.Name ∧
        o.Kind = Perm.PermClusterUpdate ∧
        (Op.update.calls env r t w)[0]? = some (Call.Check t o.Kind true) ∧
        o.Owner = t ∧
        o.CustomData = CustomData.FormToCustomData r.Form ∧
        o.Allowed = AllowedPermission.Allowed Perm.PermClusterReadEvents ∧
        ∀ c res, Call.Save c res ∈ Op.update.calls env r t w →
          c = (env.DecodeValues r.Form).1 ∧ o.Target.Value = c.Name)) ∧
    (env.Check t Perm.PermClusterDelete = true →
      (∃ o err, (Op.delete.calls env r t w).filter Call.isEventNew = [Call.EventNew o err] ∧
        o.Target.Typ = TargetType.TargetTypeCluster ∧
        o.Target.Value = Values.Get r.Query ":name" ∧
        o.Kind = Perm.PermClusterDelete ∧
        (Op.delete.calls env r t w)[0]? = some (Call.Check t o.Kind true) ∧
        o.Owner = t ∧
        o.CustomData = CustomData.FormToCustomData r.Form ∧
        o.Allowed = AllowedPermission.Allowed Perm.PermClusterReadEvents ∧
        ∀ n res, Call.DeleteCluster n res ∈ Op.delete.calls env r t w →
          n = o.Target.Value)) := by
  constructor
  · intro hC hP hD
    refine ⟨updateOpts env r t, env.EventNew (updateOpts env r t), ?_⟩
    simp only [Op.calls, Op.run, updateCluster, updateOpts, hC, hP, hD]
    generalize hO : Opts.mk _ _ _ _ _ = opts
    cases hE : env.EventNew opts with
    | some ee => subst hO; simp [Call.isEventNew]
    | none =>
      simp only []
      generalize hS : env.Save _ _ = saved
      obtain ⟨res, st⟩ := saved
      subst hO
      rcases res with (_ | e0) | v <;> simp [deferDone, Call.isEventNew]
  · intro hC
    refine ⟨deleteOpts r t, env.EventNew (deleteOpts r t), ?_⟩
    simp only [Op.calls, Op.run, deleteCluster, deleteOpts, hC]
    generalize hO : Opts.mk _ _ _ _ _ = opts
    cases hE : env.EventNew opts with
    | some ee => subst hO; simp [Call.isEventNew]
    | none =>
      simp only []
      generalize hS : env.DeleteCluster _ _ = deleted
      obtain ⟨res, st⟩ := deleted
      subst hO
      rcases res with (_ | e0) | v
      · simp [deferDone, Call.isEventNew]
      · by_cases hc : Cause e0 = ErrClusterNotFound <;> simp [deferDone, Call.isEventNew, hc]
      · simp [deferDone, Call.isEventNew]

/-- Witness of C8, amended: the options of the run of `deleteCluster` for the
token 1 and the path of `c1`. -/
theorem event_opts_fields_witness :
    ∃ o err, (Op.delete.calls sampleEnv reqC1 (Token.mk 1) (World.init [])).filter
        Call.isEventNew = [Call.EventNew o err] ∧
      o.Target.Value = "c1" ∧
      o.Allowed = AllowedPermission.Allowed Perm.PermClusterReadEvents :=
  match (event_opts_fields sampleEnv reqC1 (Token.mk 1) (World.init [])).2 (by decide) with
  | ⟨o, err, h1, _, h3, _, _, _, _, h8, _⟩ => ⟨o, err, h1, h3, h8⟩

/-- C10 as stated fails: saving the name `boom` panics after `event.New`
succeeded; `evt.Done` is called once, and what it receives is `nil`, the value
of a success. -/
theorem done_records_nil_on_panic :
    (updateCluster sampleEnv reqBoom (Token.mk 1) (World.init [])).1 =
      Outcome.panicked "connection lost" ∧
    (Op.update.calls sampleEnv reqBoom (Token.mk 1) (World.init [])).filter Call.isDone =
      [Call.Done none] ∧
    ¬ ∃ e, Call.Done (some e) ∈
      Op.update.calls sampleEnv reqBoom (Token.mk 1) (World.init []) := by
  refine ⟨by decide, by decide, ?_⟩
  rintro ⟨e, he⟩
  have hcalls : Op.update.calls sampleEnv reqBoom (Token.mk 1) (World.init []) =
      [Call.Check (Token.mk 1) Perm.PermClusterUpdate true, Call.ParseForm none,
        Call.DecodeValues reqBoom.Form none,
        Call.EventNew (updateOpts sampleEnv reqBoom (Token.mk 1)) none,
        Call.Save { Name := "boom", Config := [] } (StoreOutcome.fault "connection lost"),
        Call.Done none] := by decide
  rw [hcalls] at he
  simp at he

/-- C10, amended: for `updateCluster` and `deleteCluster`, on every execution
in which `event.New` succeeded and the store call panics with `v`: the panic
leaves the handler with the same `v`, `evt.Done` is called exactly once, it is
the last call of the handler, and its argument is `nil`, the value the result
`err` holds when the panic starts. -/
theorem done_runs_once_on_panic {σ : Type} (env : Env σ) (r : Request) (t : Token)
    (w : World σ) (v : String) :
    (env.Check t Perm.PermClusterUpdate = true → r.parseErr = none →
      (env.DecodeValues r.Form).2 = none → env.EventNew (updateOpts env r t) = none →
      (env.Save (env.DecodeValues r.Form).1 w.store).1 = StoreOutcome.fault v →
      (updateCluster env r t w).1 = Outcome.panicked v ∧
      (Op.update.calls env r t w).filter Call.isDone = [Call.Done none] ∧
      (Op.update.calls env r t w).getLast? = some (Call.Done none)) ∧
    (env.Check t Perm.PermClusterDelete = true → env.EventNew (deleteOpts r t) = none →
      (env.DeleteCluster (Values.Get r.Query ":name") w.store).1 = StoreOutcome.fault v →
      (deleteCluster env r t w).1 = Outcome.panicked v ∧
      (Op.delete.calls env r t w).filter Call.isDone = [Call.Done none] ∧
      (Op.delete.calls env r t w).getLast? = some (Call.Done none)) := by
  constructor
  · intro hC hP hD hE hS
    unfold updateOpts at hE
    simp [Op.calls, Op.run, updateCluster, hC, hP, hD, hE, hS, deferDone, Call.isDone]
  · intro hC hE hS
    unfold deleteOpts at hE
    simp [Op.calls, Op.run, deleteCluster, hC, hE, hS, deferDone, Call.isDone]

/-- Witness of C10, amended: deleting the name `boom` panics in the store. -/
theorem done_runs_once_on_panic_witness :
    (deleteCluster sampleEnv reqBoom (Token.mk 1) (World.init [])).1 =
      Outcome.panicked "connection lost" ∧
    (Op.delete.calls sampleEnv reqBoom (Token.mk 1) (World.init [])).filter Call.isDone =
      [Call.Done none] :=
  have h := (done_runs_once_on_panic sampleEnv reqBoom (Token.mk 1) (World.init [])
    "connection lost").2 (by decide) (by decide) (by decide)
  ⟨h.1, h.2.1⟩

/-- C9 fails on the code: `deleteCluster` calls `r.ParseForm()` and drops the
error.  For the token 1 and a request whose form cannot be parsed,
`deleteCluster` deletes `c1` and returns `nil`, while `updateCluster` answers
the same request with the HTTP error 400.  In general the outcome of
`deleteCluster` does not depend on what `ParseForm` returned. -/
theorem deleteCluster_drops_parse_error :
    Call.ParseForm (some (Err.New "invalid URL escape")) ∈
      Op.delete.calls sampleEnv reqBad (Token.mk 1) (World.init [clusterC1]) ∧
    (deleteCluster sampleEnv reqBad (Token.mk 1) (World.init [clusterC1])).1 =
      Outcome.returned none ∧
    (deleteCluster sampleEnv reqBad (Token.mk 1) (World.init [clusterC1])).2.store = [] ∧
    (updateCluster sampleEnv reqBad (Token.mk 1) (World.init [clusterC1])).1 =
      Outcome.returned (some (Err.HTTP StatusBadRequest "invalid URL escape")) ∧
    (∀ (env : Env Store) (r : Request) (t : Token) (w : World Store) (e : Err),
      (deleteCluster env { r with parseErr := some e } t w).1 =
        (deleteCluster env { r with parseErr := none } t w).1) := by
  refine ⟨by decide, by decide, by decide, by decide, ?_⟩
  intro env r t w e
  simp only [deleteCluster]
  cases hC : env.Check t Perm.PermClusterDelete
  · simp
  · simp only [Bool.not_true, Bool.false_eq_true, if_false]
    generalize hO : Opts.mk _ _ _ _ _ = opts
    cases hE : env.EventNew opts with
    | some ee => simp
    | none =>
      simp only [World.log_store]
      generalize hS : env.DeleteCluster _ _ = deleted
      obtain ⟨res, st⟩ := deleted
      rcases res with (_ | e0) | v
      · simp [deferDone]
      · by_cases hc : Cause e0 = ErrClusterNotFound <;> simp [deferDone, hc]
      · simp [deferDone]

/-- C4 as stated fails: when `AllClusters` answers an empty store with an empty
collection and `nil`, `listClusters` encodes the empty collection and the
status is 200, not 204. -/
theorem empty_collection_without_sentinel_is_ok :
    plainListEnv.AllClusters [] = ([], none) ∧
    (listClusters plainListEnv reqC1 (Token.mk 1) (World.init [])).1 = Outcome.returned none ∧
    (listClusters plainListEnv reqC1 (Token.mk 1) (World.init [])).2.resp =
      { status := some StatusOK, body := [[]] } ∧
    Call.WriteHeader StatusNoContent ∉
      Op.list.calls plainListEnv reqC1 (Token.mk 1) (World.init []) := by
  decide

/-- C4, amended: for every authorized `listClusters` request with a fresh
response writer: when `AllClusters` returns the error `ErrNoCluster`, the
handler returns `nil`, the status is 204, nothing is written to the body and
the encoder is not called; when `AllClusters` returns a collection with `nil`
and the encoder succeeds, the handler returns `nil`, the status is 200 and the
body is that collection, with all its elements, also when it is empty. -/
theorem list_no_content_or_collection {σ : Type} (env : Env σ) (r : Request) (t : Token)
    (w : World σ)
    (hauth : env.Check t Perm.PermClusterRead = true)
    (hfresh : w.resp = Response.empty) :
    ((env.AllClusters w.store).2 = some ErrNoCluster →
      (listClusters env r t w).1 = Outcome.returned none ∧
      (listClusters env r t w).2.resp = { status := some StatusNoContent, body := [] } ∧
      ∀ c ∈ Op.list.calls env r t w, ∀ cs err, c ≠ Call.Encode cs err) ∧
    (∀ cs, env.AllClusters w.store = (cs, none) → env.Encode cs = none →
      (listClusters env r t w).1 = Outcome.returned none ∧
      (listClusters env r t w).2.resp = { status := some StatusOK, body := [cs] } ∧
      ∃ col, (listClusters env r t w).2.resp.body = [col] ∧ col.length = cs.length) := by
  have hst : w.resp.status = none := by rw [hfresh]; rfl
  have hbody : w.resp.body = [] := by rw [hfresh]; rfl
  constructor
  · intro hA
    simp [Op.calls, Op.run, listClusters, hauth, hA, World.WriteHeader_fresh, hst, hbody]
  · intro cs hA hN
    simp [listClusters, hauth, hA, hN, World.Write_fresh, hst, hbody]

/-- Witness of C4, amended: listing an empty store and a store that holds `c1`. -/
theorem list_no_content_or_collection_witness :
    (listClusters sampleEnv reqC1 (Token.mk 1) (World.init [])).2.resp =
      { status := some StatusNoContent, body := [] } ∧
    (listClusters sampleEnv reqC1 (Token.mk 1) (World.init [clusterC1])).2.resp =
      { status := some StatusOK, body := [[clusterC1]] } :=
  ⟨((list_no_content_or_collection sampleEnv reqC1 (Token.mk 1) (World.init [])
      (by decide) rfl).1 (by decide)).2.1,
   ((list_no_content_or_collection sampleEnv reqC1 (Token.mk 1) (World.init [clusterC1])
      (by decide) rfl).2 [clusterC1] (by decide) (by decide)).2.1⟩

/-- C7: with the store call `Save` modelled as a full upsert keyed by name: for
every descriptor `D` bound from the form and every authorized caller for whom
`event.New` succeeds, two calls of `updateCluster` in succession both return
`nil` with status 200, the store leads from `D.Name` to `D` after each call,
and the store after the second call is the store after the first.  And no
handler run returns an HTTP error with code 409 unless `event.New` handed it
that very error: `updateCluster` builds none itself. -/
theorem update_twice_is_idempotent (env : Env Store) (r : Request) (t : Token) (s : Store)
    (D : Cluster)
    (hsave : env.Save = Store.Save)
    (hauth : env.Check t Perm.PermClusterUpdate = true)
    (hparse : r.parseErr = none)
    (hdecode : env.DecodeValues r.Form = (D, none))
    (hnew : env.EventNew (updateOpts env r t) = none) :
    (updateCluster env r t (World.init s)).1 = Outcome.returned none ∧
    (updateCluster env r t (World.init s)).2.resp.status = some StatusOK ∧
    Store.find (updateCluster env r t (World.init s)).2.store D.Name = some D ∧
    (updateCluster env r t (World.init (updateCluster env r t (World.init s)).2.store)).1 =
      Outcome.returned none ∧
    (updateCluster env r t
      (World.init (updateCluster env r t (World.init s)).2.store)).2.resp.status =
      some StatusOK ∧
    Store.find (updateCluster env r t
      (World.init (updateCluster env r t (World.init s)).2.store)).2.store D.Name = some D ∧
    (updateCluster env r t (World.init (updateCluster env r t (World.init s)).2.store)).2.store =
      (updateCluster env r t (World.init s)).2.store ∧
    (∀ (env2 : Env Store) (r2 : Request) (t2 : Token) (w2 : World Store) (msg : String),
      (updateCluster env2 r2 t2 w2).1 = Outcome.returned (some (Err.HTTP StatusConflict msg)) →
      env2.EventNew (updateOpts env2 r2 t2) = some (Err.HTTP StatusConflict msg)) := by
  have hrun : ∀ s0 : Store, updateCluster env r t (World.init s0) =
      (Outcome.returned none,
        { store := Store.upsert D s0,
          resp := { status := some StatusOK, body := [] },
          trace := [Call.Check t Perm.PermClusterUpdate true, Call.ParseForm none,
            Call.DecodeValues r.Form none, Call.EventNew (updateOpts env r t) none,
            Call.Save D (StoreOutcome.ret none), Call.WriteHeader StatusOK,
            Call.Done none] }) := by
    intro s0
    simp only [updateOpts, hdecode] at hnew
    simp [updateCluster, updateOpts, hauth, hparse, hdecode, hnew, hsave, Store.Save,
      deferDone, World.init, World.WriteHeader, World.log, Response.empty]
  refine ⟨?_, ?_, ?_, ?_, ?_, ?_, ?_, ?_⟩
  · rw [hrun]
  · rw [hrun]
  · rw [hrun]; exact Store.find_upsert D s
  · rw [hrun, hrun]
  · rw [hrun, hrun]
  · rw [hrun, hrun]; exact Store.find_upsert D _
  · rw [hrun, hrun]; exact Store.upsert_idem D s
  · intro env2 r2 t2 w2 msg
    simp only [updateCluster, updateOpts]
    cases hC : env2.Check t2 Perm.PermClusterUpdate
    · simp [ErrUnauthorized]
    · cases hP : r2.parseErr with
      | some pe => simp [StatusBadRequest, StatusConflict]
      | none =>
        cases hD : (env2.DecodeValues r2.Form).2 with
        | some de => simp [hD, StatusBadRequest, StatusConflict]
        | none =>
          simp only [hD, Bool.not_true, Bool.false_eq_true, if_false]
          generalize hO : Opts.mk _ _ _ _ _ = opts
          cases hE : env2.EventNew opts with
          | some ee => simp
          | none =>
            simp only [World.log_store]
            generalize hS : env2.Save _ _ = saved
            obtain ⟨res, st⟩ := saved
            rcases res with (_ | e0) | v <;> simp [deferDone]

/-- Witness of C7: the token 1 posts the form of `c1` twice, starting from an
empty store. -/
theorem update_twice_is_idempotent_witness :
    (updateCluster sampleEnv reqC1 (Token.mk 1)
      (World.init (updateCluster sampleEnv reqC1 (Token.mk 1) (World.init [])).2.store)).2.store =
      (updateCluster sampleEnv reqC1 (Token.mk 1) (World.init [])).2.store ∧
    Store.find (updateCluster sampleEnv reqC1 (Token.mk 1) (World.init [])).2.store "c1" =
      some clusterC1 :=
  have h := update_twice_is_idempotent { sampleEnv with Save := Store.Save } reqC1
    (Token.mk 1) [] clusterC1 rfl (by decide) (by decide) (by decide) (by decide)
  ⟨h.2.2.2.2.2.2.1, h.2.2.1⟩

end Tsuru
